import Mathlib

/-!
Verification development for the BinFBX codec and mesh-editing tool
(`src/tool/BinFBX.h`, `src/tool/BinFBX.cpp`).

Two embeddings are used, both translated from the C++ source:

* `ControlModding` (this namespace, byte level): the decode path
  (`BinFBX::BinFBX` and the record constructors it delegates to) is
  modelled as a family of `parse` functions over a byte list together
  with a position; the serialisation path (`BinFBX::Write` and the
  per-record `Write` methods) as pure functions producing a byte list.
  The C++ performs raw, unchecked reads through iterators; a read that
  would go past the end of the buffer is undefined behaviour there and
  is modelled here by the distinguished outcome `Fault.oobAccess`,
  while the two `throw std::runtime_error` sites are modelled by
  `Fault.badMagic` and `Fault.badMaterialMagic`.  Scalar fields whose
  numeric value the program never uses (floats, flag words) are kept
  as their raw bytes; counts and offsets are decoded little-endian.

* `ControlModding.Edit` (structural level): the in-memory model on
  which `BinFBX::RemoveMesh`, `BinFBX::RecomputeTrailerFromMeshes` and
  `Mesh::AccumulateTriangleAreas` operate.  `float`/`double`
  arithmetic is modelled by exact rationals; `std::sqrt` is kept
  abstract as an explicit function parameter `fsqrt` (theorems assume
  only the properties of the real square root they need, e.g. that it
  is nonnegative on nonnegative inputs), and the reinterpretation of
  four raw bytes as a `float` is an abstract parameter `dec`.
-/

set_option maxRecDepth 1000000

instance {e a : Type} [DecidableEq e] [DecidableEq a] : DecidableEq (Except e a) := fun x y =>
  match x, y with
  | .ok v, .ok w => if h : v = w then isTrue (by rw [h]) else isFalse (by simp [h])
  | .error v, .error w => if h : v = w then isTrue (by rw [h]) else isFalse (by simp [h])
  | .ok _, .error _ => isFalse (by simp)
  | .error _, .ok _ => isFalse (by simp)

namespace ControlModding

/-- A byte buffer: a list of byte values. -/
abbrev Bytes := List Nat

/-- Little-endian value of a byte list (first byte least significant). -/
def leVal (bs : Bytes) : Nat := bs.foldr (fun b acc => b + 256 * acc) 0

/-- Little-endian 4-byte encoding of a 32-bit value, as emitted by the
`Write` methods for `uint32_t` fields. -/
def u32le (n : Nat) : Bytes := [n % 256, n / 256 % 256, n / 2 ^ 16 % 256, n / 2 ^ 24 % 256]

/-- Slice `b pos n`: the `n` bytes of `b` starting at `pos`. -/
def slice (b : Bytes) (pos n : Nat) : Bytes := (b.drop pos).take n

/-- Outcome of a failed decode.  `oobAccess` models a raw read past the
end of the buffer (undefined behaviour in the C++ source, which reads
through unchecked iterators); the other two model the explicit
`throw std::runtime_error` sites of `BinFBX::BinFBX` and
`Material::Material`. -/
inductive Fault
  | oobAccess
  | badMagic
  | badMaterialMagic
deriving DecidableEq

/-- Read `n` raw bytes at `pos`, advancing the position. -/
def readBytes (b : Bytes) (pos n : Nat) : Except Fault (Bytes × Nat) :=
  if pos + n ≤ b.length then .ok (slice b pos n, pos + n) else .error .oobAccess

/-- Read a little-endian `uint32_t`. -/
def readU32 (b : Bytes) (pos : Nat) : Except Fault (Nat × Nat) := do
  let (bs, p) ← readBytes b pos 4
  .ok (leVal bs, p)

/-- Read one byte. -/
def readU8 (b : Bytes) (pos : Nat) : Except Fault (Nat × Nat) := do
  let (bs, p) ← readBytes b pos 1
  .ok (leVal bs, p)

/-- The source reads counts as `int32_t` and runs `for (int32_t i = 0; i < count; ++i)`:
a count with the sign bit set is negative and runs zero iterations. -/
def i32Loop (v : Nat) : Nat := if v < 2 ^ 31 then v else 0

/-- Length-prefixed byte string: a 4-byte count followed by that many bytes
(the `std::string` construction pattern used throughout the source). -/
def readLenBytes (b : Bytes) (pos : Nat) : Except Fault (Bytes × Nat) := do
  let (n, p) ← readU32 b pos
  readBytes b p n

/-- Run a record parser `n` times in sequence (the `for` loops of the source). -/
def readList (p : Bytes → Nat → Except Fault (α × Nat)) :
    Nat → Bytes → Nat → Except Fault (List α × Nat)
  | 0, _, pos => .ok ([], pos)
  | n + 1, b, pos => do
    let (x, p1) ← p b pos
    let (xs, p2) ← readList p n b p1
    .ok (x :: xs, p2)

/-! ## Joint (`Joint::Joint` / `Joint::Write`) -/

/-- One skeleton bone.  The 12-float matrix, 3-float envelope, radius and
parent index are never interpreted numerically by the program, so they are
kept as their raw bytes. -/
structure Joint where
  name : Bytes
  matrixBytes : Bytes
  envelopeBytes : Bytes
  radiusBytes : Bytes
  parentBytes : Bytes
deriving DecidableEq

def Joint.parse (b : Bytes) (pos : Nat) : Except Fault (Joint × Nat) := do
  let (nm, p1) ← readLenBytes b pos
  let (mat, p2) ← readBytes b p1 48
  let (env, p3) ← readBytes b p2 12
  let (rad, p4) ← readBytes b p3 4
  let (par, p5) ← readBytes b p4 4
  .ok (⟨nm, mat, env, rad, par⟩, p5)

def Joint.write (j : Joint) : Bytes :=
  u32le j.name.length ++ j.name ++ j.matrixBytes ++ j.envelopeBytes ++ j.radiusBytes ++ j.parentBytes

/-! ## UniformVariable (`UniformVariable::UniformVariable` / `Write`)

Type tags from `BinFBX.h`: Float 0x00, Range 0x01, Vector 0x02, Color 0x03,
TextureSampler 0x08, TextureMap 0x09, Boolean 0x0C, NoPayload 0x10. -/

/-- Payload of a uniform variable: fixed-size payloads are raw bytes, a
TextureMap payload is a length-prefixed string, and TextureSampler,
NoPayload and unrecognized tags carry nothing. -/
inductive UVData
  | nodata
  | raw (bs : Bytes)
  | str (s : Bytes)
deriving DecidableEq

structure UniformVariable where
  name : Bytes
  uniformType : Nat
  data : UVData
deriving DecidableEq

/-- Decode of `UniformVariable::UniformVariable`: read the name and the 4-byte type
tag, then branch on the tag.  The source `switch` has no `default` case:
an unrecognized tag reads no payload and the constructor returns normally. -/
def UniformVariable.parse (b : Bytes) (pos : Nat) : Except Fault (UniformVariable × Nat) := do
  let (nm, p1) ← readLenBytes b pos
  let (tag, p2) ← readU32 b p1
  if tag = 0 then do
    let (d, p3) ← readBytes b p2 4
    .ok (⟨nm, tag, .raw d⟩, p3)
  else if tag = 1 then do
    let (d, p3) ← readBytes b p2 8
    .ok (⟨nm, tag, .raw d⟩, p3)
  else if tag = 3 then do
    let (d, p3) ← readBytes b p2 16
    .ok (⟨nm, tag, .raw d⟩, p3)
  else if tag = 2 then do
    let (d, p3) ← readBytes b p2 12
    .ok (⟨nm, tag, .raw d⟩, p3)
  else if tag = 9 then do
    let (s, p3) ← readLenBytes b p2
    .ok (⟨nm, tag, .str s⟩, p3)
  else if tag = 8 then
    .ok (⟨nm, tag, .nodata⟩, p2)
  else if tag = 12 then do
    let (d, p3) ← readBytes b p2 4
    .ok (⟨nm, tag, .raw d⟩, p3)
  else if tag = 16 then
    .ok (⟨nm, tag, .nodata⟩, p2)
  else
    .ok (⟨nm, tag, .nodata⟩, p2)

def UVData.rawOf : UVData → Bytes
  | .raw bs => bs
  | _ => []

def UVData.strOf : UVData → Bytes
  | .str s => s
  | _ => []

/-- Encode of `UniformVariable::Write`: name, tag, then the tag-determined payload
(the write-side `switch` likewise has no `default`, so an unrecognized tag
emits no payload). -/
def UniformVariable.write (u : UniformVariable) : Bytes :=
  u32le u.name.length ++ u.name ++ u32le u.uniformType ++
  (if u.uniformType = 0 ∨ u.uniformType = 1 ∨ u.uniformType = 3 ∨ u.uniformType = 2
      ∨ u.uniformType = 12 then
    u.data.rawOf
  else if u.uniformType = 9 then
    u32le u.data.strOf.length ++ u.data.strOf
  else
    [])

/-! ## Material (`Material::Material` / `Material::Write`) -/

structure Material where
  materialId : Bytes
  name : Bytes
  typeName : Bytes
  path : Bytes
  materialParams : Bytes
  uniformVariables : List UniformVariable
deriving DecidableEq

/-- Decode of `Material::Material`: the leading magic `int32_t` must equal 7,
otherwise the constructor throws. -/
def Material.parse (b : Bytes) (pos : Nat) : Except Fault (Material × Nat) := do
  let (magick, p1) ← readU32 b pos
  if magick ≠ 7 then .error .badMaterialMagic
  else do
    let (mid, p2) ← readBytes b p1 8
    let (nm, p3) ← readLenBytes b p2
    let (ty, p4) ← readLenBytes b p3
    let (pa, p5) ← readLenBytes b p4
    let (params, p6) ← readBytes b p5 24
    let (cnt, p7) ← readU32 b p6
    let (uvs, p8) ← readList UniformVariable.parse (i32Loop cnt) b p7
    .ok (⟨mid, nm, ty, pa, params, uvs⟩, p8)

def Material.write (m : Material) : Bytes :=
  u32le 7 ++ m.materialId ++
  u32le m.name.length ++ m.name ++
  u32le m.typeName.length ++ m.typeName ++
  u32le m.path.length ++ m.path ++
  m.materialParams ++
  u32le m.uniformVariables.length ++ (m.uniformVariables.map UniformVariable.write).flatten

/-! ## AttributeInfo and vertex strides (`Mesh::GetVertexSizes`)

Attribute type codes from `BinFBX.h`: FLOAT3 0x2, BYTE4_SNORM 0x4,
BYTE4_UNORM 0x5, SHORT2_SNORM 0x7, SHORT4_SNORM 0x8, SHORT4_UINT 0xd,
BYTE4_UINT 0xf. -/

structure AttributeInfo where
  index : Nat
  typeCode : Nat
  usage : Nat
  zero : Nat
deriving DecidableEq

def AttributeInfo.parse (b : Bytes) (pos : Nat) : Except Fault (AttributeInfo × Nat) := do
  let (i, p1) ← readU8 b pos
  let (t, p2) ← readU8 b p1
  let (u, p3) ← readU8 b p2
  let (z, p4) ← readU8 b p3
  .ok (⟨i, t, u, z⟩, p4)

def AttributeInfo.write (a : AttributeInfo) : Bytes :=
  [a.index % 256, a.typeCode % 256, a.usage % 256, a.zero % 256]

/-- Byte-size contribution of one attribute format (the `switch` in
`Mesh::GetVertexSizes`; formats outside the listed cases contribute 0
because that `switch` has no `default`). -/
def attrTypeSize (t : Nat) : Nat :=
  if t = 2 then 12
  else if t = 4 ∨ t = 5 ∨ t = 15 ∨ t = 7 then 4
  else if t = 8 ∨ t = 13 then 8
  else 0

/-- Strides of `Mesh::GetVertexSizes`: the source accumulates into
`std::get<0>(result)` when `i.Index` is nonzero and into
`std::get<1>(result)` when it is zero. -/
def getVertexSizes (attrs : List AttributeInfo) : Nat × Nat :=
  attrs.foldl
    (fun acc a =>
      if a.index ≠ 0 then (acc.1 + attrTypeSize a.typeCode, acc.2)
      else (acc.1, acc.2 + attrTypeSize a.typeCode))
    (0, 0)

/-! ## Vertex/index localization (the body of `Mesh::Mesh`)

The constructor walks the `triangleCount × 3` indices of the mesh's slice
of the shared index buffer; each first-seen global index is assigned the
next local index and its `stride` bytes are copied from each shared vertex
buffer into the mesh's own buffers.  The `std::unordered_map` from global
to local index is modelled by the list `seen` of global indices in
first-seen order (the map sends `g` to its position in `seen`). -/

/-- Decode the `n`-th global index of the mesh's index-buffer slice: a
`mIndexSize`-byte little-endian read at `(mIndexBufferOffset + n) * mIndexSize`.
The source `switch` covers widths 1, 2, 4 and 8 only; for any other width
the local `index` variable keeps its zero initialisation. -/
def readGlobalIndex (aIndexBuffer : Bytes) (aIndexSize aOffset n : Nat) : Nat :=
  if aIndexSize = 1 ∨ aIndexSize = 2 ∨ aIndexSize = 4 ∨ aIndexSize = 8 then
    leVal (slice aIndexBuffer ((aOffset + n) * aIndexSize) aIndexSize)
  else 0

/-- The `3 * triangleCount` global indices referenced by the mesh, in the
order the constructor visits them. -/
def globalIndices (aIndexBuffer : Bytes) (aIndexSize aOffset tc : Nat) : List Nat :=
  (List.range (3 * tc)).map (readGlobalIndex aIndexBuffer aIndexSize aOffset)

/-- Position of the first occurrence of `g` in a list (the value
`index_to_local` associates to a key that was inserted when the list had
that many elements). -/
def idxOf (g : Nat) : List Nat → Nat
  | [] => 0
  | x :: xs => if x = g then 0 else idxOf g xs + 1

/-- State of the localization loop: `seen` is the first-seen order of
global indices (the contents of `index_to_local`), `vb0`/`vb1` the mesh's
local vertex buffers, `idx` the local index values written so far. -/
structure LocalState where
  seen : List Nat
  vb0 : Bytes
  vb1 : Bytes
  idx : List Nat
deriving DecidableEq

/-- One iteration of the localization loop for global index `g`. -/
def localizeStep (sv0 sv1 : Bytes) (off0 off1 s0 s1 : Nat) (st : LocalState) (g : Nat) :
    LocalState :=
  let st' :=
    if g ∈ st.seen then st
    else
      { st with
        seen := st.seen ++ [g]
        vb0 := st.vb0 ++ slice sv0 (off0 + g * s0) s0
        vb1 := st.vb1 ++ slice sv1 (off1 + g * s1) s1 }
  { st' with idx := st'.idx ++ [idxOf g st'.seen] }

def localizeAux (sv0 sv1 : Bytes) (off0 off1 s0 s1 : Nat) :
    LocalState → List Nat → LocalState
  | st, [] => st
  | st, g :: gs => localizeAux sv0 sv1 off0 off1 s0 s1 (localizeStep sv0 sv1 off0 off1 s0 s1 st g) gs

def localize (sv0 sv1 : Bytes) (off0 off1 s0 s1 : Nat) (gs : List Nat) : LocalState :=
  localizeAux sv0 sv1 off0 off1 s0 s1 ⟨[], [], [], []⟩ gs

/-- The mesh's local buffers as built by `Mesh::Mesh` from the shared
buffers.  For an index width outside {1,2,4,8} neither `switch` in the
source has a matching case, so nothing is ever stored into the local index
buffer and its `mIndexSize * mTriangleCount * 3` zeroed bytes decode as
`3 * triangleCount` zero indices. -/
def buildLocal (sv0 sv1 aIndexBuffer : Bytes) (aIndexSize aOffset off0 off1 : Nat)
    (attrs : List AttributeInfo) (tc : Nat) : LocalState :=
  let s := getVertexSizes attrs
  let st := localize sv0 sv1 off0 off1 s.1 s.2 (globalIndices aIndexBuffer aIndexSize aOffset tc)
  if aIndexSize = 1 ∨ aIndexSize = 2 ∨ aIndexSize = 4 ∨ aIndexSize = 8 then st
  else { st with idx := List.replicate (3 * tc) 0 }

/-! ## Mesh (`Mesh::Mesh` / `Mesh::Write`) -/

structure Mesh where
  mIndex : Nat
  localBuffers : LocalState
  indexSize : Nat
  lod : Nat
  vertexCount : Nat
  triangleCount : Nat
  vbOffset0 : Nat
  vbOffset1 : Nat
  ibOffset : Nat
  flags0 : Bytes
  sphere : Bytes
  box : Bytes
  flags1 : Bytes
  attributeInfos : List AttributeInfo
  jointBytes : Bytes
  unknown3 : Bytes
  isRigidMesh : Nat
  unknown5 : Bytes
deriving DecidableEq

/-- Decode of `Mesh::Mesh`: the stream fields in declaration order.  The attribute
count is a single byte, not a 4-byte count.  The constructor additionally
receives the shared buffers and index width and builds the local buffers. -/
def Mesh.parse (aIndex : Nat) (sv0 sv1 sib : Bytes) (w : Nat) (b : Bytes) (pos : Nat) :
    Except Fault (Mesh × Nat) := do
  let (lod, p1) ← readU32 b pos
  let (vc, p2) ← readU32 b p1
  let (tc, p3) ← readU32 b p2
  let (o0, p4) ← readU32 b p3
  let (o1, p5) ← readU32 b p4
  let (ibo, p6) ← readU32 b p5
  let (f0, p7) ← readBytes b p6 4
  let (sp, p8) ← readBytes b p7 16
  let (bx, p9) ← readBytes b p8 24
  let (f1, p10) ← readBytes b p9 4
  let (ac, p11) ← readU8 b p10
  let (attrs, p12) ← readList AttributeInfo.parse ac b p11
  let (jt, p13) ← readBytes b p12 4
  let (u3, p14) ← readBytes b p13 4
  let (rig, p15) ← readU8 b p14
  let (u5, p16) ← readBytes b p15 4
  .ok (⟨aIndex, buildLocal sv0 sv1 sib w ibo o0 o1 attrs tc, w,
        lod, vc, tc, o0, o1, ibo, f0, sp, bx, f1, attrs, jt, u3, rig, u5⟩, p16)

/-- Encode of `Mesh::Write`: re-emits the stream fields only; the local buffers are
never written. -/
def Mesh.write (m : Mesh) : Bytes :=
  u32le m.lod ++ u32le m.vertexCount ++ u32le m.triangleCount ++
  u32le m.vbOffset0 ++ u32le m.vbOffset1 ++ u32le m.ibOffset ++
  m.flags0 ++ m.sphere ++ m.box ++ m.flags1 ++
  [m.attributeInfos.length % 256] ++ (m.attributeInfos.map AttributeInfo.write).flatten ++
  m.jointBytes ++ m.unknown3 ++ [m.isRigidMesh % 256] ++ m.unknown5

/-! ## BinFBX container (`BinFBX::BinFBX` / `BinFBX::Write`) -/

/-- The per-group mesh loop: before each record the constructor peeks the
next 4 bytes as the mesh's LOD and restarts the running index at 0
whenever the LOD changes. -/
def parseGroupMeshes (sv0 sv1 sib : Bytes) (w : Nat) (b : Bytes) :
    Nat → Nat → Nat → Nat → Except Fault (List Mesh × Nat)
  | 0, _, _, pos => .ok ([], pos)
  | n + 1, lod, idx, pos => do
    let (lodHere, _) ← readU32 b pos
    let lod' := lodHere
    let idx' := if lodHere ≠ lod then 0 else idx
    let (m, p1) ← Mesh.parse idx' sv0 sv1 sib w b pos
    let (ms, p2) ← parseGroupMeshes sv0 sv1 sib w b n lod' (idx' + 1) p1
    .ok (m :: ms, p2)

/-- One mesh group: a 4-byte count, then that many `Mesh` records.  The
source initialises its running LOD by dereferencing the cursor before the
loop, unconditionally — even when the count is zero. -/
def parseMeshGroup (sv0 sv1 sib : Bytes) (w : Nat) (b : Bytes) (pos : Nat) :
    Except Fault (List Mesh × Nat) := do
  let (cnt, p1) ← readU32 b pos
  let (lod0, _) ← readU32 b p1
  parseGroupMeshes sv0 sv1 sib w b (i32Loop cnt) lod0 0 p1

/-- One alternate material map: a length-prefixed name followed by exactly
`len` 4-byte entries, where `len` is the length of material map 0 — the
reader consumes no per-map element count. -/
def parseAltMap (len : Nat) (b : Bytes) (pos : Nat) :
    Except Fault ((Bytes × List Nat) × Nat) := do
  let (nm, p1) ← readLenBytes b pos
  let (v, p2) ← readList readU32 len b p1
  .ok ((nm, v), p2)

structure BinFBX where
  vertexBuffers0 : Bytes
  vertexBuffers1 : Bytes
  indexBuffer : Bytes
  indexSize : Nat
  joints : List Joint
  reservedInts : Bytes
  globalScale : Bytes
  lodThresholds : List Bytes
  mirrorSign : Bytes
  aabbCenter : Bytes
  boundingSphereRadius : Bytes
  aabbMin : Bytes
  aabbMax : Bytes
  globalLODCount : Bytes
  materials : List Material
  materialMap0 : List Nat
  alternateMaterialMaps : List (Bytes × List Nat)
  materialMap1 : List Nat
  meshes0 : List Mesh
  meshes1 : List Mesh
  tailReserved0 : Bytes
  totalSurfaceArea : Bytes
  triangleAreaCDF : List Bytes
deriving DecidableEq

/-- Decode of `BinFBX::BinFBX`: one linear pass over the buffer in the source's
field order.  The header magic must equal `0x2e` or the constructor
throws; no other field is validated. -/
def BinFBX.parse (b : Bytes) : Except Fault (BinFBX × Nat) := do
  let (magic, p1) ← readU32 b 0
  if magic ≠ 0x2e then .error .badMagic
  else do
    let (v0sz, p2) ← readU32 b p1
    let (v1sz, p3) ← readU32 b p2
    let (icnt, p4) ← readU32 b p3
    let (isz, p5) ← readU32 b p4
    let (vb0, p6) ← readBytes b p5 v0sz
    let (vb1, p7) ← readBytes b p6 v1sz
    let (ib, p8) ← readBytes b p7 (icnt * isz)
    let (jc, p9) ← readU32 b p8
    let (joints, p10) ← readList Joint.parse (i32Loop jc) b p9
    let (ri, p11) ← readBytes b p10 8
    let (gs, p12) ← readBytes b p11 4
    let (ltc, p13) ← readU32 b p12
    let (lts, p14) ← readList (fun b p => readBytes b p 4) (i32Loop ltc) b p13
    let (ms, p15) ← readBytes b p14 4
    let (ac, p16) ← readBytes b p15 12
    let (bsr, p17) ← readBytes b p16 4
    let (mn, p18) ← readBytes b p17 12
    let (mx, p19) ← readBytes b p18 12
    let (glc, p20) ← readBytes b p19 4
    let (mc, p21) ← readU32 b p20
    let (mats, p22) ← readList Material.parse (i32Loop mc) b p21
    let (mm0c, p23) ← readU32 b p22
    let (mm0, p24) ← readList readU32 (i32Loop mm0c) b p23
    let (amc, p25) ← readU32 b p24
    let (amm, p26) ← readList (parseAltMap mm0.length) (i32Loop amc) b p25
    let (mm1c, p27) ← readU32 b p26
    let (mm1, p28) ← readList readU32 (i32Loop mm1c) b p27
    let (g0, p29) ← parseMeshGroup vb0 vb1 ib isz b p28
    let (g1, p30) ← parseMeshGroup vb0 vb1 ib isz b p29
    let (tr, p31) ← readBytes b p30 4
    let (ta, p32) ← readBytes b p31 4
    let (cc, p33) ← readU32 b p32
    let (cdf, p34) ← readList (fun b p => readBytes b p 4) (i32Loop cc) b p33
    .ok (⟨vb0, vb1, ib, isz, joints, ri, gs, lts, ms, ac, bsr, mn, mx, glc,
          mats, mm0, amm, mm1, g0, g1, tr, ta, cdf⟩, p34)

/-- Encode of `BinFBX::Write`: the fixed `2E 00 00 00` tag, the three size fields
and the index width, then every block in decode order.  For each
alternate material map the writer emits the name and then the vector's
element count before its data — an inner count the reader never consumes. -/
def BinFBX.write (m : BinFBX) : Bytes :=
  u32le 0x2e ++
  u32le m.vertexBuffers0.length ++ u32le m.vertexBuffers1.length ++
  u32le (m.indexBuffer.length / m.indexSize) ++ u32le m.indexSize ++
  m.vertexBuffers0 ++ m.vertexBuffers1 ++ m.indexBuffer ++
  u32le m.joints.length ++ (m.joints.map Joint.write).flatten ++
  m.reservedInts ++ m.globalScale ++
  u32le m.lodThresholds.length ++ m.lodThresholds.flatten ++
  m.mirrorSign ++ m.aabbCenter ++ m.boundingSphereRadius ++ m.aabbMin ++ m.aabbMax ++
  m.globalLODCount ++
  u32le m.materials.length ++ (m.materials.map Material.write).flatten ++
  u32le m.materialMap0.length ++ (m.materialMap0.map u32le).flatten ++
  u32le m.alternateMaterialMaps.length ++
  (m.alternateMaterialMaps.map (fun am =>
    u32le am.1.length ++ am.1 ++ u32le am.2.length ++ (am.2.map u32le).flatten)).flatten ++
  u32le m.materialMap1.length ++ (m.materialMap1.map u32le).flatten ++
  u32le m.meshes0.length ++ (m.meshes0.map Mesh.write).flatten ++
  u32le m.meshes1.length ++ (m.meshes1.map Mesh.write).flatten ++
  m.tailReserved0 ++ m.totalSurfaceArea ++
  u32le m.triangleAreaCDF.length ++ m.triangleAreaCDF.flatten

/-- Decode succeeds and consumes the whole buffer. -/
def decodeOk (b : Bytes) : Bool :=
  match BinFBX.parse b with
  | .ok (_, n) => n = b.length
  | .error _ => false

/-- Decode, then re-encode without any edit. -/
def reencode (b : Bytes) : Option Bytes :=
  match BinFBX.parse b with
  | .ok (m, _) => some (BinFBX.write m)
  | .error _ => none

/-! ## In-memory editing model (`BinFBX::RemoveMesh`,
`BinFBX::RecomputeTrailerFromMeshes`, `Mesh::AccumulateTriangleAreas`)

Float/double arithmetic is modelled by exact rationals.  `std::sqrt` is an
explicit parameter `fsqrt : ℚ → ℚ` of every definition that uses it, and
the reinterpretation of four raw bytes as a `float` is a parameter
`dec : Bytes → ℚ`; theorems take as hypotheses only the properties of the
real operations they need. -/

namespace Edit

/-- The fields of a mesh that the editing operations consult, plus the
locally-owned buffers built at construction.  The local index buffer is
kept at value level (the source stores it as raw bytes and reinterprets
through the index width on every access). -/
structure Mesh where
  mIndex : Nat
  lod : Nat
  triangleCount : Nat
  attributeInfos : List AttributeInfo
  vertexBuffers0 : Bytes
  vertexBuffers1 : Bytes
  indexBuffer : List Nat
  indexSize : Nat
deriving DecidableEq

structure Trailer where
  tailReserved0 : Nat
  totalSurfaceArea : ℚ
  triangleAreaCDF : List ℚ
deriving DecidableEq

structure BinFBX where
  meshes0 : List Mesh
  meshes1 : List Mesh
  materialMap0 : List Nat
  materialMap1 : List Nat
  alternateMaterialMaps : List (Bytes × List Nat)
  trailer : Trailer
deriving DecidableEq

def vsub (a b : ℚ × ℚ × ℚ) : ℚ × ℚ × ℚ :=
  (a.1 - b.1, a.2.1 - b.2.1, a.2.2 - b.2.2)

def vcross (a b : ℚ × ℚ × ℚ) : ℚ × ℚ × ℚ :=
  (a.2.1 * b.2.2 - a.2.2 * b.2.1, a.2.2 * b.1 - a.1 * b.2.2, a.1 * b.2.1 - a.2.1 * b.1)

def vnormSq (a : ℚ × ℚ × ℚ) : ℚ :=
  a.1 * a.1 + a.2.1 * a.2.1 + a.2.2 * a.2.2

/-- Load the three floats of a position at local vertex `v`. -/
def loadPos (dec : Bytes → ℚ) (posBuf : Bytes) (stride v : Nat) : ℚ × ℚ × ℚ :=
  (dec (slice posBuf (v * stride) 4),
   dec (slice posBuf (v * stride + 4) 4),
   dec (slice posBuf (v * stride + 8) 4))

/-- The scan for a FLOAT3 attribute with usage 0 (position): the source
takes the first match and selects local buffer 0 when its `Index` is
nonzero, buffer 1 otherwise. -/
def findPosAttr : List AttributeInfo → Option Nat
  | [] => none
  | a :: rest =>
    if a.typeCode = 2 ∧ a.usage = 0 then some (if a.index ≠ 0 then 0 else 1)
    else findPosAttr rest

/-- Area of triangle `i`: half the square root of the squared magnitude of
the cross product of the two edge vectors (`std::sqrt` as `fsqrt`). -/
def triangleArea (fsqrt : ℚ → ℚ) (dec : Bytes → ℚ) (m : Mesh) (posBuf : Bytes)
    (stride i : Nat) : ℚ :=
  let p0 := loadPos dec posBuf stride (m.indexBuffer.getD (3 * i) 0)
  let p1 := loadPos dec posBuf stride (m.indexBuffer.getD (3 * i + 1) 0)
  let p2 := loadPos dec posBuf stride (m.indexBuffer.getD (3 * i + 2) 0)
  (1 / 2) * fsqrt (vnormSq (vcross (vsub p1 p0) (vsub p2 p0)))

/-- Model of `Mesh::AccumulateTriangleAreas`: `none` models returning `false` (no
position attribute, zero stride, or — inside the triangle loop, hence only
when at least one triangle exists — an index width outside {1,2,4,8});
`some l` models returning `true` having appended `l` to the output. -/
def Mesh.accumulateTriangleAreas (fsqrt : ℚ → ℚ) (dec : Bytes → ℚ) (m : Mesh) :
    Option (List ℚ) :=
  match findPosAttr m.attributeInfos with
  | none => none
  | some posIndex =>
    let stride := if posIndex = 0 then (getVertexSizes m.attributeInfos).1
                  else (getVertexSizes m.attributeInfos).2
    let posBuf := if posIndex = 0 then m.vertexBuffers0 else m.vertexBuffers1
    if stride = 0 then none
    else if m.triangleCount ≠ 0 ∧
        ¬(m.indexSize = 1 ∨ m.indexSize = 2 ∨ m.indexSize = 4 ∨ m.indexSize = 8) then none
    else some ((List.range m.triangleCount).map (triangleArea fsqrt dec m posBuf stride))

/-- The per-mesh accumulation results across group 0 then group 1, in the
order `RecomputeTrailerFromMeshes` visits them. -/
def accumResults (fsqrt : ℚ → ℚ) (dec : Bytes → ℚ) (m : BinFBX) : List (Option (List ℚ)) :=
  (m.meshes0 ++ m.meshes1).map (Mesh.accumulateTriangleAreas fsqrt dec)

/-- All accumulated areas, in order (the shared `areas` vector). -/
def collectAreas (fsqrt : ℚ → ℚ) (dec : Bytes → ℚ) (m : BinFBX) : List ℚ :=
  ((accumResults fsqrt dec m).map (fun r => r.getD [])).flatten

/-- Overwrite the last element (`mTriangleAreaCDF.back() = 1.0f`). -/
def setLast (l : List ℚ) (v : ℚ) : List ℚ :=
  if l = [] then l else l.take (l.length - 1) ++ [v]

/-- The rebuilt CDF: running sums normalized by the total, last entry
forced to 1. -/
def cdfOf (areas : List ℚ) : List ℚ :=
  setLast ((List.range areas.length).map fun i => (areas.take (i + 1)).sum / areas.sum) 1

/-- Model of `BinFBX::RecomputeTrailerFromMeshes`: if no mesh yielded area data, or
no areas were collected, or the total is not positive, the trailer is left
untouched; otherwise the total, the CDF and the reserved word are rebuilt. -/
def recomputeTrailerFromMeshes (fsqrt : ℚ → ℚ) (dec : Bytes → ℚ) (m : BinFBX) : BinFBX :=
  let ok := (accumResults fsqrt dec m).any Option.isSome
  let areas := collectAreas fsqrt dec m
  if ¬ok ∨ areas = [] then m
  else if areas.sum ≤ 0 then m
  else
    { m with trailer :=
      { tailReserved0 := 0
        totalSurfaceArea := areas.sum
        triangleAreaCDF := cdfOf areas } }

/-- Model of `BinFBX::RemoveMesh`: find the first mesh of the group whose running
index and LOD match; when absent, log and return with the model unchanged.
On a match, erase the mesh, erase the group's material-map entry at the
same position and — when the group is 0 and the position is in range —
erase the alternate-material-map *element* at that position (the source
erases from the outer `mAlternateMaterialMaps` vector, i.e. removes a
whole named map).  Finally recompute the trailer. -/
def removeMesh (fsqrt : ℚ → ℚ) (dec : Bytes → ℚ) (m : BinFBX) (g : Fin 2)
    (aLOD aIndex : Nat) : BinFBX :=
  let grp := if g = 0 then m.meshes0 else m.meshes1
  match grp.findIdx? (fun me => me.mIndex == aIndex && me.lod == aLOD) with
  | none => m
  | some i =>
    let m1 :=
      if g = 0 then
        { m with meshes0 := grp.eraseIdx i, materialMap0 := m.materialMap0.eraseIdx i }
      else
        { m with meshes1 := grp.eraseIdx i, materialMap1 := m.materialMap1.eraseIdx i }
    let m2 :=
      if g = 0 ∧ i < m.alternateMaterialMaps.length then
        { m1 with alternateMaterialMaps := m1.alternateMaterialMaps.eraseIdx i }
      else m1
    recomputeTrailerFromMeshes fsqrt dec m2

end Edit

/-! ## Concrete buffers used by the theorems -/

/-- Four zero bytes: a zero `uint32_t` / zero `float`. -/
def z4 : Bytes := [0, 0, 0, 0]

/-- A minimal well-formed stream: correct magic, empty shared buffers,
index width 1, no joints, no LOD thresholds, no materials, empty material
maps, no alternate material maps, no meshes, empty CDF.  124 bytes, and
`BinFBX.parse` consumes exactly all of them. -/
def sampleBuf : Bytes :=
  [0x2e, 0, 0, 0] ++ z4 ++ z4 ++ z4 ++ [1, 0, 0, 0] ++
  z4 ++
  z4 ++ z4 ++
  z4 ++
  z4 ++
  z4 ++
  z4 ++ z4 ++ z4 ++
  z4 ++
  z4 ++ z4 ++ z4 ++
  z4 ++ z4 ++ z4 ++
  z4 ++
  z4 ++
  z4 ++
  z4 ++
  z4 ++
  z4 ++
  z4 ++
  z4 ++ z4 ++
  z4

/-- Variant of `sampleBuf` with one alternate material map (count 1, empty name, and
— material map 0 being empty — zero entries). 132 bytes. -/
def sampleBufAlt : Bytes :=
  [0x2e, 0, 0, 0] ++ z4 ++ z4 ++ z4 ++ [1, 0, 0, 0] ++
  z4 ++
  z4 ++ z4 ++
  z4 ++
  z4 ++
  z4 ++
  z4 ++ z4 ++ z4 ++
  z4 ++
  z4 ++ z4 ++ z4 ++
  z4 ++ z4 ++ z4 ++
  z4 ++
  z4 ++
  z4 ++
  [1, 0, 0, 0] ++ z4 ++
  z4 ++
  z4 ++
  z4 ++
  z4 ++ z4 ++
  z4

/-- Variant of `sampleBuf` with the header's index byte-width field replaced by `w`. -/
def withWidth (w : Nat) : Bytes :=
  sampleBuf.take 16 ++ u32le w ++ sampleBuf.drop 20

/-- Variant of `sampleBuf` with one material holding a single uniform variable whose
type tag is 5 — not one of the recognized tags. -/
def sampleBufUV : Bytes :=
  [0x2e, 0, 0, 0] ++ z4 ++ z4 ++ z4 ++ [1, 0, 0, 0] ++
  z4 ++
  z4 ++ z4 ++
  z4 ++
  z4 ++
  z4 ++
  z4 ++ z4 ++ z4 ++
  z4 ++
  z4 ++ z4 ++ z4 ++
  z4 ++ z4 ++ z4 ++
  z4 ++
  [1, 0, 0, 0] ++
  ([7, 0, 0, 0] ++ z4 ++ z4 ++ z4 ++ z4 ++ z4 ++
   (z4 ++ z4 ++ z4 ++ z4 ++ z4 ++ z4) ++ [1, 0, 0, 0] ++
   (z4 ++ [5, 0, 0, 0])) ++
  z4 ++
  z4 ++
  z4 ++
  z4 ++
  z4 ++
  z4 ++ z4 ++
  z4

/-! ## Specification-side definitions

These follow the spec's wording ("distinct global indices", "in order of
first occurrence") and are compared with the state the localization loop
of `Mesh::Mesh` actually builds. -/

/-- Distinct elements in order of first occurrence, continuing from an
already-seen list `S`. -/
def firstSeenFrom (S : List Nat) : List Nat → List Nat
  | [] => S
  | g :: gs => firstSeenFrom (if g ∈ S then S else S ++ [g]) gs

/-- Distinct elements of `gs` in order of first occurrence. -/
def firstSeen (gs : List Nat) : List Nat := firstSeenFrom [] gs

/-- The sequence of local index values the loop writes, given the set of
already-seen global indices. -/
def localSpec (S : List Nat) : List Nat → List Nat
  | [] => []
  | g :: gs =>
    let S' := if g ∈ S then S else S ++ [g]
    idxOf g S' :: localSpec S' gs

/-! ## Concrete editing-model instances used by witnesses and
counterexamples -/

/-- The identity as a stand-in square root: nonnegative on nonnegative
inputs and zero at zero, which is all the theorems assume of `fsqrt`. -/
def idQ : ℚ → ℚ := fun q => q

/-- A trivial float decoder. -/
def zeroDec : Bytes → ℚ := fun _ => 0

/-- Little-endian byte value as a rational: a concrete float decoder for
witnesses. -/
def leValQ : Bytes → ℚ := fun bs => (leVal bs : ℚ)

/-- Two meshes in group 0 (LOD 0, running indices 0 and 1, no attributes),
two material-map-0 entries, and two named alternate material maps of
length 2 each. -/
def M2 : Edit.BinFBX :=
  { meshes0 := [⟨0, 0, 0, [], [], [], [], 1⟩, ⟨1, 0, 0, [], [], [], [], 1⟩]
    meshes1 := []
    materialMap0 := [10, 11]
    materialMap1 := []
    alternateMaterialMaps := [([65], [10, 11]), ([66], [20, 21])]
    trailer := ⟨7, 0, []⟩ }

/-- A non-empty mesh set whose single mesh has no position attribute, with
a stale trailer (reserved word 5, CDF of the wrong length). -/
def M6 : Edit.BinFBX :=
  { meshes0 := [⟨0, 0, 1, [], [], [], [0, 0, 0], 1⟩]
    meshes1 := []
    materialMap0 := [0]
    materialMap1 := []
    alternateMaterialMaps := []
    trailer := ⟨5, 3, [5, 2]⟩ }

/-- A model with one mesh at (group 0, LOD 0, index 0). -/
def M8 : Edit.BinFBX :=
  { meshes0 := [⟨0, 0, 0, [], [], [], [], 1⟩]
    meshes1 := []
    materialMap0 := [4]
    materialMap1 := []
    alternateMaterialMaps := [([65], [4])]
    trailer := ⟨9, 2, [1]⟩ }

/-- One mesh with a position attribute (FLOAT3, usage 0, buffer index 1 so
stride 12 on local buffer 0) and zero triangles: accumulation succeeds for
it with an empty area list. -/
def W10 : Edit.BinFBX :=
  { meshes0 := [⟨0, 0, 0, [⟨1, 2, 0, 0⟩], [], [], [], 1⟩]
    meshes1 := []
    materialMap0 := [0]
    materialMap1 := []
    alternateMaterialMaps := []
    trailer := ⟨6, 4, [2]⟩ }

/-- One mesh with a position attribute, three vertices at (0,0,0), (1,0,0)
and (0,1,0) and one triangle over them: a positive total area. -/
def W6 : Edit.BinFBX :=
  { meshes0 := [⟨0, 0, 1, [⟨1, 2, 0, 0⟩],
      ([0, 0, 0, 0, 0, 0, 0, 0, 0, 0, 0, 0] ++
       [1, 0, 0, 0, 0, 0, 0, 0, 0, 0, 0, 0] ++
       [0, 0, 0, 0, 1, 0, 0, 0, 0, 0, 0, 0]),
      [], [0, 1, 2], 2⟩]
    meshes1 := []
    materialMap0 := [0]
    materialMap1 := []
    alternateMaterialMaps := []
    trailer := ⟨6, 4, [2]⟩ }

/-! # Theorems -/

/-! ## C1 — round-trip identity -/

/-- C1: constructing a `BinFBX` from a valid buffer and writing it back
with no intervening edit should reproduce the input bytes.  This fails:
`sampleBufAlt` is a well-formed stream (decode succeeds and consumes every
byte) containing one alternate material map, yet re-encoding it does not
reproduce the input — `BinFBX::Write` emits a 4-byte inner element count
for each alternate material map that `BinFBX::BinFBX` never reads.  The
same buffer without the alternate material map does round-trip. -/
theorem c1_roundtrip_bug :
    decodeOk sampleBufAlt = true ∧ reencode sampleBufAlt ≠ some sampleBufAlt ∧
    reencode sampleBuf = some sampleBuf := by
  decide

/-! ## C3 — bounds safety of decode -/

/-- C3 counterexample: the claim says a truncated buffer yields a
*detected* error and that no read ever accesses memory outside the
buffer.  In fact the decode path reads through unchecked iterators:
truncating the valid stream `sampleBuf` to its first 60 bytes makes the
decode read past the end of the buffer (`Fault.oobAccess`, the model's
marker for an out-of-range access — undefined behaviour in the C++ —
as opposed to the detected errors `badMagic`/`badMaterialMagic`). -/
theorem c3_counterexample :
    BinFBX.parse (sampleBuf.take 60) = .error .oobAccess := by
  decide

/-- C3 amended: decode performs no bounds checking; truncating a valid
stream anywhere strictly before its end makes the decode access bytes
outside the supplied buffer rather than fail with a detected error
(shown for every strict prefix of the valid stream `sampleBuf`). -/
theorem c3_truncation_reads_out_of_bounds :
    ∀ n < sampleBuf.length, BinFBX.parse (sampleBuf.take n) = .error .oobAccess := by
  decide

/-- C3 witness for the amended theorem, at prefix length 100. -/
theorem c3_truncation_witness :
    BinFBX.parse (sampleBuf.take 100) = .error .oobAccess :=
  c3_truncation_reads_out_of_bounds 100 (by decide)

/-! ## C4 — unrecognized uniform-variable type tags -/

/-- C4 counterexample: the claim says an unrecognized uniform-variable
type tag aborts the decode of the whole file.  In fact `sampleBufUV`,
whose single material holds a uniform variable with the unrecognized tag
5, decodes successfully (and the whole buffer is consumed): the `switch`
in `UniformVariable::UniformVariable` has no `default` case, so the tag
is silently accepted. -/
theorem c4_counterexample : decodeOk sampleBufUV = true := by
  decide

/-- C4 amended: a uniform variable whose type tag is not one of the
recognized values is silently skipped, not rejected: decoding succeeds,
stores the tag, and consumes no payload bytes (the position after the
record is exactly the position after the tag). -/
theorem c4_unrecognized_tag_skipped (b : Bytes) (pos : Nat) (nm : Bytes) (p1 tag p2 : Nat)
    (h1 : readLenBytes b pos = .ok (nm, p1)) (h2 : readU32 b p1 = .ok (tag, p2))
    (h3 : tag ∉ ([0, 1, 3, 2, 9, 8, 12, 16] : List Nat)) :
    UniformVariable.parse b pos = .ok (⟨nm, tag, .nodata⟩, p2) := by
  simp only [List.mem_cons, List.mem_singleton, not_or] at h3
  obtain ⟨n0, n1, n3, n2, n9, n8, n12, n16, -⟩ := h3
  simp [UniformVariable.parse, h1, h2, n0, n1, n3, n2, n9, n8, n12, n16, Bind.bind, Except.bind]

/-- C4 witness: the amended theorem at a concrete 8-byte record (empty
name, tag 5). -/
theorem c4_unrecognized_tag_witness :
    UniformVariable.parse [0, 0, 0, 0, 5, 0, 0, 0] 0 = .ok (⟨[], 5, .nodata⟩, 8) :=
  c4_unrecognized_tag_skipped [0, 0, 0, 0, 5, 0, 0, 0] 0 [] 4 5 8
    (by decide) (by decide) (by decide)

/-! ## C7 — vertex stride table -/

theorem getVertexSizes_foldl (attrs : List AttributeInfo) (acc : Nat × Nat) :
    attrs.foldl
      (fun acc a =>
        if a.index ≠ 0 then (acc.1 + attrTypeSize a.typeCode, acc.2)
        else (acc.1, acc.2 + attrTypeSize a.typeCode)) acc =
    (acc.1 + ((attrs.filter fun a => a.index != 0).map fun a => attrTypeSize a.typeCode).sum,
     acc.2 + ((attrs.filter fun a => a.index == 0).map fun a => attrTypeSize a.typeCode).sum) := by
  induction attrs generalizing acc with
  | nil => simp
  | cons a rest ih =>
    rw [List.foldl_cons, ih]
    by_cases h : a.index = 0 <;>
      simp [h, List.filter_cons, Prod.ext_iff] <;> omega

/-- C7 counterexample: the claim says `GetVertexSizes` on
`[FLOAT3 with bufferIndex 1, SHORT4_UINT with bufferIndex 0]` returns
`(stride0, stride1) = (8, 12)`.  The source accumulates an attribute with
nonzero `Index` into component 0 of the tuple, so the result is `(12, 8)`:
the tuple is ordered the other way around. -/
theorem c7_counterexample :
    getVertexSizes [⟨1, 2, 0, 0⟩, ⟨0, 13, 5, 0⟩] ≠ (8, 12) := by
  decide

/-- C7 amended: component 0 of `GetVertexSizes` is the summed byte size
of the attributes with bufferIndex ≠ 0 and component 1 that of the
attributes with bufferIndex 0 (each attribute's format-determined size is
added to the component selected by its bufferIndex, but component `k`
collects bufferIndex `1 - k`); on
`[FLOAT3 with bufferIndex 1, SHORT4_UINT with bufferIndex 0]` the result
is `(12, 8)`. -/
theorem c7_stride_assignment :
    (∀ attrs : List AttributeInfo,
      getVertexSizes attrs =
        (((attrs.filter fun a => a.index != 0).map fun a => attrTypeSize a.typeCode).sum,
         ((attrs.filter fun a => a.index == 0).map fun a => attrTypeSize a.typeCode).sum)) ∧
    getVertexSizes [⟨1, 2, 0, 0⟩, ⟨0, 13, 5, 0⟩] = (12, 8) := by
  refine ⟨fun attrs => ?_, by decide⟩
  simpa [getVertexSizes] using getVertexSizes_foldl attrs (0, 0)

/-! ## C9 — index byte-width validation -/

/-- C9 counterexample: the claim says a header index byte-width outside
{1, 2, 4, 8} makes decoding fail fatally.  In fact a stream whose width
field is 3 decodes successfully and consumes the whole buffer: the width
is never validated. -/
theorem c9_counterexample : decodeOk (withWidth 3) = true := by
  decide

/-- C9 amended: the decode path does not validate the index byte-width:
the header field is stored verbatim and decoding proceeds (shown for
widths 3 and 0; only `Mesh::Mesh` and `Mesh::AccumulateTriangleAreas`
later branch on the width, treating unknown widths as reading index 0
and as a failed accumulation respectively). -/
theorem c9_width_not_validated :
    (BinFBX.parse (withWidth 3)).toOption.map (fun p => p.1.indexSize) = some 3 ∧
    decodeOk (withWidth 0) = true ∧
    (BinFBX.parse (withWidth 0)).toOption.map (fun p => p.1.indexSize) = some 0 := by
  decide

/-! ## C8 — RemoveMesh with no matching mesh is a no-op -/

/-- C8: for every model and every (group, LOD, index) triple that matches
no mesh of the addressed group, `RemoveMesh` returns normally with the
entire model unchanged — mesh groups, material maps, alternate material
maps and the trailer included (the source logs and returns before
touching any state, and in particular before recomputing the trailer). -/
theorem c8_notfound_noop (fsqrt : ℚ → ℚ) (dec : Bytes → ℚ) (m : Edit.BinFBX) (g : Fin 2)
    (lod idx : Nat)
    (h : ∀ me ∈ (if g = 0 then m.meshes0 else m.meshes1), ¬(me.mIndex = idx ∧ me.lod = lod)) :
    Edit.removeMesh fsqrt dec m g lod idx = m := by
  have hnone : (if g = 0 then m.meshes0 else m.meshes1).findIdx?
      (fun me => me.mIndex == idx && me.lod == lod) = none := by
    rw [List.findIdx?_eq_none_iff]
    intro me hme
    rw [Bool.eq_false_iff]
    intro hb
    exact h me hme (by simpa [Bool.and_eq_true, beq_iff_eq] using hb)
  simp [Edit.removeMesh, hnone]

/-- C8 witness: no mesh of `M8` has (LOD 5, index 7). -/
theorem c8_notfound_witness : Edit.removeMesh idQ zeroDec M8 0 5 7 = M8 :=
  c8_notfound_noop idQ zeroDec M8 0 5 7 (by decide)

/-! ## C10 — nonpositive total area leaves the trailer untouched -/

/-- C10: when at least one mesh's area accumulation succeeds but the
summed area is not positive (e.g. every triangle degenerate),
`RecomputeTrailerFromMeshes` returns with the whole model — in particular
every trailer field — unchanged. -/
theorem c10_nonpositive_total_noop (fsqrt : ℚ → ℚ) (dec : Bytes → ℚ) (m : Edit.BinFBX)
    (hok : (Edit.accumResults fsqrt dec m).any Option.isSome = true)
    (hsum : (Edit.collectAreas fsqrt dec m).sum ≤ 0) :
    Edit.recomputeTrailerFromMeshes fsqrt dec m = m := by
  unfold Edit.recomputeTrailerFromMeshes
  by_cases he : Edit.collectAreas fsqrt dec m = []
  · simp [he]
  · simp [he, hok, hsum]

/-- C10 witness: `W10`'s mesh accumulates successfully (zero triangles,
empty area list), the total is 0 ≤ 0, and the model is unchanged. -/
theorem c10_witness :
    (Edit.accumResults idQ zeroDec W10).any Option.isSome = true ∧
    (Edit.collectAreas idQ zeroDec W10).sum ≤ 0 ∧
    Edit.recomputeTrailerFromMeshes idQ zeroDec W10 = W10 :=
  ⟨by decide, by decide, c10_nonpositive_total_noop idQ zeroDec W10 (by decide) (by decide)⟩

/-! ## C2 — RemoveMesh and the alternate material maps -/

/-- C2: removing the mesh at (group 0, LOD 0, index 0) of `M2` shrinks
`meshGroups[0]` by one, erases the material-map-0 entry at the matched
position, and leaves group 1 untouched — but, contrary to the claim (and
to the spec's own length invariant
`len(alternateMaterialMaps[i].map) == len(materialMaps[0])`), it does
*not* erase one entry from every alternate material map's per-mesh
vector: `RemoveMesh` erases from the outer `mAlternateMaterialMaps`
vector, deleting the whole named map at the mesh's position ([65] here)
and leaving the surviving map ([66]) with its stale 2-entry vector next
to the now 1-entry material map 0. -/
theorem c2_removemesh_altmap_bug :
    (Edit.removeMesh idQ zeroDec M2 0 0 0).meshes0.length = M2.meshes0.length - 1 ∧
    (Edit.removeMesh idQ zeroDec M2 0 0 0).materialMap0 = [11] ∧
    (Edit.removeMesh idQ zeroDec M2 0 0 0).meshes1 = M2.meshes1 ∧
    (Edit.removeMesh idQ zeroDec M2 0 0 0).materialMap1 = M2.materialMap1 ∧
    (Edit.removeMesh idQ zeroDec M2 0 0 0).alternateMaterialMaps = [([66], [20, 21])] ∧
    ¬(∀ am ∈ (Edit.removeMesh idQ zeroDec M2 0 0 0).alternateMaterialMaps,
        am.2.length = (Edit.removeMesh idQ zeroDec M2 0 0 0).materialMap0.length) := by
  decide

/-! ## C6 — trailer CDF after recompute -/

/-- C6 counterexample: the claim quantifies over every model with a
non-empty mesh set, but when no mesh yields area data (here: the single
mesh has no position attribute) `RecomputeTrailerFromMeshes` returns
early and the pre-existing trailer survives: reserved word 5 ≠ 0, a CDF
whose length is not the total triangle count, and CDF values outside
[0, 1]. -/
theorem c6_counterexample :
    M6.meshes0 ++ M6.meshes1 ≠ [] ∧
    ¬((Edit.recomputeTrailerFromMeshes idQ zeroDec M6).trailer.tailReserved0 = 0 ∧
      (Edit.recomputeTrailerFromMeshes idQ zeroDec M6).trailer.triangleAreaCDF.length =
        ((M6.meshes0 ++ M6.meshes1).map Edit.Mesh.triangleCount).sum ∧
      ∀ x ∈ (Edit.recomputeTrailerFromMeshes idQ zeroDec M6).trailer.triangleAreaCDF,
        0 ≤ x ∧ x ≤ 1) := by
  decide

theorem vnormSq_nonneg (v : ℚ × ℚ × ℚ) : 0 ≤ Edit.vnormSq v := by
  unfold Edit.vnormSq
  have h1 := mul_self_nonneg v.1
  have h2 := mul_self_nonneg v.2.1
  have h3 := mul_self_nonneg v.2.2
  linarith

theorem triangleArea_nonneg (fsqrt : ℚ → ℚ) (dec : Bytes → ℚ)
    (hs : ∀ q : ℚ, 0 ≤ q → 0 ≤ fsqrt q) (me : Edit.Mesh) (posBuf : Bytes) (stride i : Nat) :
    0 ≤ Edit.triangleArea fsqrt dec me posBuf stride i := by
  unfold Edit.triangleArea
  have h := hs _ (vnormSq_nonneg (Edit.vcross
    (Edit.vsub (Edit.loadPos dec posBuf stride (me.indexBuffer.getD (3 * i + 1) 0))
      (Edit.loadPos dec posBuf stride (me.indexBuffer.getD (3 * i) 0)))
    (Edit.vsub (Edit.loadPos dec posBuf stride (me.indexBuffer.getD (3 * i + 2) 0))
      (Edit.loadPos dec posBuf stride (me.indexBuffer.getD (3 * i) 0)))))
  exact mul_nonneg (by norm_num) h

/-- The accumulation of `Mesh::AccumulateTriangleAreas` either fails or appends exactly the
per-triangle areas of the mesh's `triangleCount` triangles. -/
theorem accumulate_eq_none_or_map (fsqrt : ℚ → ℚ) (dec : Bytes → ℚ) (me : Edit.Mesh) :
    Edit.Mesh.accumulateTriangleAreas fsqrt dec me = none ∨
    ∃ posBuf stride, Edit.Mesh.accumulateTriangleAreas fsqrt dec me =
      some ((List.range me.triangleCount).map (Edit.triangleArea fsqrt dec me posBuf stride)) := by
  unfold Edit.Mesh.accumulateTriangleAreas
  cases Edit.findPosAttr me.attributeInfos with
  | none => exact .inl rfl
  | some pi =>
    dsimp only
    split <;>
    · split
      · exact .inl rfl
      · split
        · exact .inl rfl
        · exact .inr ⟨_, _, rfl⟩

theorem accumulate_getD_nonneg (fsqrt : ℚ → ℚ) (dec : Bytes → ℚ)
    (hs : ∀ q : ℚ, 0 ≤ q → 0 ≤ fsqrt q) (me : Edit.Mesh) :
    ∀ a ∈ (Edit.Mesh.accumulateTriangleAreas fsqrt dec me).getD [], 0 ≤ a := by
  intro a ha
  rcases accumulate_eq_none_or_map fsqrt dec me with h | ⟨posBuf, stride, h⟩ <;> rw [h] at ha
  · simp at ha
  · simp only [Option.getD_some, List.mem_map, List.mem_range] at ha
    obtain ⟨i, -, rfl⟩ := ha
    exact triangleArea_nonneg fsqrt dec hs me posBuf stride i

theorem accumulate_getD_length (fsqrt : ℚ → ℚ) (dec : Bytes → ℚ) (me : Edit.Mesh)
    (h : (Edit.Mesh.accumulateTriangleAreas fsqrt dec me).isSome = true) :
    ((Edit.Mesh.accumulateTriangleAreas fsqrt dec me).getD []).length = me.triangleCount := by
  rcases accumulate_eq_none_or_map fsqrt dec me with heq | ⟨posBuf, stride, heq⟩ <;> rw [heq]
  · rw [heq] at h
    simp at h
  · simp

theorem collectAreas_nonneg (fsqrt : ℚ → ℚ) (dec : Bytes → ℚ) (m : Edit.BinFBX)
    (hs : ∀ q : ℚ, 0 ≤ q → 0 ≤ fsqrt q) :
    ∀ a ∈ Edit.collectAreas fsqrt dec m, 0 ≤ a := by
  intro a ha
  unfold Edit.collectAreas Edit.accumResults at ha
  rw [List.mem_flatten] at ha
  obtain ⟨l, hl, hal⟩ := ha
  rw [List.map_map, List.mem_map] at hl
  obtain ⟨me, -, rfl⟩ := hl
  exact accumulate_getD_nonneg fsqrt dec hs me a hal

theorem collectAreas_length (fsqrt : ℚ → ℚ) (dec : Bytes → ℚ) (m : Edit.BinFBX)
    (hall : ∀ me ∈ m.meshes0 ++ m.meshes1,
      (Edit.Mesh.accumulateTriangleAreas fsqrt dec me).isSome = true) :
    (Edit.collectAreas fsqrt dec m).length =
      ((m.meshes0 ++ m.meshes1).map Edit.Mesh.triangleCount).sum := by
  unfold Edit.collectAreas Edit.accumResults
  rw [List.length_flatten, List.map_map, List.map_map]
  exact congrArg List.sum (List.map_congr_left fun me hme =>
    accumulate_getD_length fsqrt dec me (hall me hme))

/-! ### Running-sum CDF lemmas -/

theorem take_sum_nonneg (l : List ℚ) (h : ∀ x ∈ l, 0 ≤ x) (k : Nat) :
    0 ≤ (l.take k).sum :=
  List.sum_nonneg fun x hx => h x (List.mem_of_mem_take hx)

theorem take_sum_le_sum (l : List ℚ) (h : ∀ x ∈ l, 0 ≤ x) (k : Nat) :
    (l.take k).sum ≤ l.sum := by
  have hsplit := List.sum_take_add_sum_drop l k
  have hd : 0 ≤ (l.drop k).sum :=
    List.sum_nonneg fun x hx => h x (List.mem_of_mem_drop hx)
  linarith

theorem take_sum_mono (l : List ℚ) (h : ∀ x ∈ l, 0 ≤ x) {j k : Nat} (hjk : j ≤ k) :
    (l.take j).sum ≤ (l.take k).sum := by
  have := take_sum_le_sum (l.take k) (fun x hx => h x (List.mem_of_mem_take hx)) j
  rwa [List.take_take, Nat.min_eq_left hjk] at this

/-- The CDF rebuilt by `RecomputeTrailerFromMeshes`, written as running
sums over `List.range` with the final entry forced to 1. -/
theorem cdfOf_eq (areas : List ℚ) (hne : areas ≠ []) :
    Edit.cdfOf areas =
      (List.range (areas.length - 1)).map
        (fun i => (areas.take (i + 1)).sum / areas.sum) ++ [1] := by
  unfold Edit.cdfOf Edit.setLast
  have hlen : (List.range areas.length).map
      (fun i => (areas.take (i + 1)).sum / areas.sum) ≠ [] := by
    intro hcon
    have := congrArg List.length hcon
    simp only [List.length_map, List.length_range, List.length_nil] at this
    exact hne (List.eq_nil_of_length_eq_zero this)
  rw [if_neg hlen, List.length_map, List.length_range, ← List.map_take, List.take_range,
    Nat.min_eq_left (Nat.sub_le _ _)]

theorem cdfOf_length (areas : List ℚ) (hne : areas ≠ []) :
    (Edit.cdfOf areas).length = areas.length := by
  rw [cdfOf_eq areas hne]
  have : 0 < areas.length := List.length_pos.mpr hne
  simp
  omega

theorem cdfOf_getLast (areas : List ℚ) (hne : areas ≠ []) :
    (Edit.cdfOf areas).getLast? = some 1 := by
  rw [cdfOf_eq areas hne]
  exact List.getLast?_concat _

theorem cdfOf_mem_bounds (areas : List ℚ) (h0 : ∀ x ∈ areas, 0 ≤ x)
    (hpos : 0 < areas.sum) :
    ∀ x ∈ Edit.cdfOf areas, 0 ≤ x ∧ x ≤ 1 := by
  have hne : areas ≠ [] := by
    intro h
    rw [h] at hpos
    exact absurd hpos (by simp)
  rw [cdfOf_eq areas hne]
  intro x hx
  rcases List.mem_append.mp hx with hx | hx
  · rw [List.mem_map] at hx
    obtain ⟨i, -, rfl⟩ := hx
    constructor
    · exact div_nonneg (take_sum_nonneg areas h0 _) hpos.le
    · rw [div_le_one hpos]
      exact take_sum_le_sum areas h0 _
  · simp only [List.mem_singleton] at hx
    subst hx
    norm_num

theorem cdfOf_sorted (areas : List ℚ) (h0 : ∀ x ∈ areas, 0 ≤ x)
    (hpos : 0 < areas.sum) :
    List.Pairwise (· ≤ ·) (Edit.cdfOf areas) := by
  have hne : areas ≠ [] := by
    intro h
    rw [h] at hpos
    exact absurd hpos (by simp)
  rw [cdfOf_eq areas hne]
  rw [List.pairwise_append]
  refine ⟨?_, List.pairwise_singleton _ _, ?_⟩
  · refine List.Pairwise.map _ ?_ (List.pairwise_lt_range _)
    intro a b hab
    rw [div_le_div_iff_of_pos_right hpos]
    exact take_sum_mono areas h0 (by omega)
  · intro a ha b hb
    simp only [List.mem_singleton] at hb
    subst hb
    rw [List.mem_map] at ha
    obtain ⟨i, -, rfl⟩ := ha
    rw [div_le_one hpos]
    exact take_sum_le_sum areas h0 _

/-- C6 amended: *provided the recomputation actually runs* — every mesh's
area accumulation succeeds and the summed area is positive — the rebuilt
trailer CDF is non-decreasing, every value lies in [0, 1], the final
value equals exactly 1, its length is the total triangle count across
both mesh groups, and the reserved word is reset to 0.  (The original
claim assumed only a non-empty mesh set; `c6_counterexample` shows the
early-return paths of `RecomputeTrailerFromMeshes` violate it.) -/
theorem c6_cdf_invariants (fsqrt : ℚ → ℚ) (dec : Bytes → ℚ) (m : Edit.BinFBX)
    (hs : ∀ q : ℚ, 0 ≤ q → 0 ≤ fsqrt q)
    (hall : ∀ me ∈ m.meshes0 ++ m.meshes1,
      (Edit.Mesh.accumulateTriangleAreas fsqrt dec me).isSome = true)
    (hpos : 0 < (Edit.collectAreas fsqrt dec m).sum) :
    List.Pairwise (· ≤ ·)
      (Edit.recomputeTrailerFromMeshes fsqrt dec m).trailer.triangleAreaCDF ∧
    (∀ x ∈ (Edit.recomputeTrailerFromMeshes fsqrt dec m).trailer.triangleAreaCDF,
      0 ≤ x ∧ x ≤ 1) ∧
    (Edit.recomputeTrailerFromMeshes fsqrt dec m).trailer.triangleAreaCDF.getLast? = some 1 ∧
    (Edit.recomputeTrailerFromMeshes fsqrt dec m).trailer.triangleAreaCDF.length =
      ((m.meshes0 ++ m.meshes1).map Edit.Mesh.triangleCount).sum ∧
    (Edit.recomputeTrailerFromMeshes fsqrt dec m).trailer.tailReserved0 = 0 := by
  have h0 := collectAreas_nonneg fsqrt dec m hs
  have hne : Edit.collectAreas fsqrt dec m ≠ [] := by
    intro h
    rw [h] at hpos
    exact absurd hpos (by simp)
  have hok : (Edit.accumResults fsqrt dec m).any Option.isSome = true := by
    rw [List.any_eq_true]
    have hmne : m.meshes0 ++ m.meshes1 ≠ [] := by
      intro h
      apply hne
      unfold Edit.collectAreas Edit.accumResults
      rw [h]
      rfl
    obtain ⟨me, hme⟩ := List.exists_mem_of_ne_nil _ hmne
    exact ⟨_, List.mem_map_of_mem _ hme, hall me hme⟩
  have hrec : Edit.recomputeTrailerFromMeshes fsqrt dec m =
      { m with trailer :=
        ⟨0, (Edit.collectAreas fsqrt dec m).sum,
         Edit.cdfOf (Edit.collectAreas fsqrt dec m)⟩ } := by
    unfold Edit.recomputeTrailerFromMeshes
    rw [if_neg, if_neg]
    · exact not_le.mpr hpos
    · rw [hok]
      simp [hne]
  rw [hrec]
  exact ⟨cdfOf_sorted _ h0 hpos, cdfOf_mem_bounds _ h0 hpos, cdfOf_getLast _ hne,
    by rw [cdfOf_length _ hne, collectAreas_length fsqrt dec m hall], rfl⟩

/-- Helper: the single triangle of `W6` has squared doubled area 1, hence area 1/2
under the identity square root. -/
theorem W6_areas : Edit.collectAreas idQ leValQ W6 = [1 / 2] := by
  simp [Edit.collectAreas, Edit.accumResults, W6, Edit.Mesh.accumulateTriangleAreas,
    Edit.findPosAttr, getVertexSizes, attrTypeSize, Edit.triangleArea, Edit.loadPos,
    Edit.vsub, Edit.vcross, Edit.vnormSq, idQ, leValQ, leVal, slice, List.range_succ]

/-- C6 witness for the amended theorem: `W6`'s single one-triangle mesh
(positions (0,0,0), (1,0,0), (0,1,0)) yields a positive total area under
the identity square root and the little-endian float decoder. -/
theorem c6_cdf_witness :
    (∀ me ∈ W6.meshes0 ++ W6.meshes1,
      (Edit.Mesh.accumulateTriangleAreas idQ leValQ me).isSome = true) ∧
    (0 < (Edit.collectAreas idQ leValQ W6).sum) ∧
    (List.Pairwise (· ≤ ·)
      (Edit.recomputeTrailerFromMeshes idQ leValQ W6).trailer.triangleAreaCDF ∧
    (∀ x ∈ (Edit.recomputeTrailerFromMeshes idQ leValQ W6).trailer.triangleAreaCDF,
      0 ≤ x ∧ x ≤ 1) ∧
    (Edit.recomputeTrailerFromMeshes idQ leValQ W6).trailer.triangleAreaCDF.getLast? = some 1 ∧
    (Edit.recomputeTrailerFromMeshes idQ leValQ W6).trailer.triangleAreaCDF.length =
      ((W6.meshes0 ++ W6.meshes1).map Edit.Mesh.triangleCount).sum ∧
    (Edit.recomputeTrailerFromMeshes idQ leValQ W6).trailer.tailReserved0 = 0) :=
  ⟨by decide, by norm_num [W6_areas],
    c6_cdf_invariants idQ leValQ W6 (fun q h => h) (by decide) (by norm_num [W6_areas])⟩

/-! ## C5 — per-mesh vertex/index localization -/

theorem slice_length (b : Bytes) (pos n : Nat) (h : pos + n ≤ b.length) :
    (slice b pos n).length = n := by
  simp only [slice, List.length_take, List.length_drop]
  omega

theorem localizeStep_seen (sv0 sv1 : Bytes) (off0 off1 s0 s1 : Nat) (st : LocalState)
    (g : Nat) :
    (localizeStep sv0 sv1 off0 off1 s0 s1 st g).seen =
      if g ∈ st.seen then st.seen else st.seen ++ [g] := by
  by_cases h : g ∈ st.seen <;> simp [localizeStep, h]

theorem localizeStep_vb0 (sv0 sv1 : Bytes) (off0 off1 s0 s1 : Nat) (st : LocalState)
    (g : Nat) :
    (localizeStep sv0 sv1 off0 off1 s0 s1 st g).vb0 =
      if g ∈ st.seen then st.vb0 else st.vb0 ++ slice sv0 (off0 + g * s0) s0 := by
  by_cases h : g ∈ st.seen <;> simp [localizeStep, h]

theorem localizeStep_vb1 (sv0 sv1 : Bytes) (off0 off1 s0 s1 : Nat) (st : LocalState)
    (g : Nat) :
    (localizeStep sv0 sv1 off0 off1 s0 s1 st g).vb1 =
      if g ∈ st.seen then st.vb1 else st.vb1 ++ slice sv1 (off1 + g * s1) s1 := by
  by_cases h : g ∈ st.seen <;> simp [localizeStep, h]

theorem localizeStep_idx (sv0 sv1 : Bytes) (off0 off1 s0 s1 : Nat) (st : LocalState)
    (g : Nat) :
    (localizeStep sv0 sv1 off0 off1 s0 s1 st g).idx =
      st.idx ++ [idxOf g (if g ∈ st.seen then st.seen else st.seen ++ [g])] := by
  by_cases h : g ∈ st.seen <;> simp [localizeStep, h]

theorem firstSeenFrom_ext (S : List Nat) (gs : List Nat) :
    ∃ t, firstSeenFrom S gs = S ++ t := by
  induction gs generalizing S with
  | nil => exact ⟨[], by simp [firstSeenFrom]⟩
  | cons g gs ih =>
    by_cases h : g ∈ S
    · obtain ⟨t, ht⟩ := ih S
      exact ⟨t, by simp [firstSeenFrom, h, ht]⟩
    · obtain ⟨t, ht⟩ := ih (S ++ [g])
      refine ⟨[g] ++ t, ?_⟩
      simp only [firstSeenFrom, h, if_neg, ite_false]
      rw [ht, List.append_assoc]

theorem length_le_firstSeenFrom (S : List Nat) (gs : List Nat) :
    S.length ≤ (firstSeenFrom S gs).length := by
  obtain ⟨t, ht⟩ := firstSeenFrom_ext S gs
  rw [ht]
  simp

theorem idxOf_lt_length {g : Nat} {S : List Nat} (h : g ∈ S) : idxOf g S < S.length := by
  induction S with
  | nil => cases h
  | cons x xs ih =>
    by_cases hx : x = g
    · simp [idxOf, hx]
    · rcases List.mem_cons.mp h with h' | h'
      · exact absurd h'.symm hx
      · simp only [idxOf, hx, ite_false, List.length_cons]
        exact Nat.succ_lt_succ (ih h')

theorem idxOf_append_left {g : Nat} {S : List Nat} (t : List Nat) (h : g ∈ S) :
    idxOf g (S ++ t) = idxOf g S := by
  induction S with
  | nil => cases h
  | cons x xs ih =>
    by_cases hx : x = g
    · simp [idxOf, hx]
    · rcases List.mem_cons.mp h with h' | h'
      · exact absurd h'.symm hx
      · simp only [List.cons_append, idxOf, hx, ite_false]
        exact congrArg (· + 1) (ih h')

theorem localizeAux_seen (sv0 sv1 : Bytes) (off0 off1 s0 s1 : Nat) (gs : List Nat) :
    ∀ st : LocalState,
      (localizeAux sv0 sv1 off0 off1 s0 s1 st gs).seen = firstSeenFrom st.seen gs := by
  induction gs with
  | nil => intro st; rfl
  | cons g gs ih =>
    intro st
    rw [localizeAux, ih, firstSeenFrom, localizeStep_seen]

theorem localizeAux_vb_length (sv0 sv1 : Bytes) (off0 off1 s0 s1 : Nat) (gs : List Nat) :
    ∀ st : LocalState,
      (∀ g ∈ gs, off0 + g * s0 + s0 ≤ sv0.length) →
      (∀ g ∈ gs, off1 + g * s1 + s1 ≤ sv1.length) →
      st.vb0.length = st.seen.length * s0 →
      st.vb1.length = st.seen.length * s1 →
      (localizeAux sv0 sv1 off0 off1 s0 s1 st gs).vb0.length =
        (localizeAux sv0 sv1 off0 off1 s0 s1 st gs).seen.length * s0 ∧
      (localizeAux sv0 sv1 off0 off1 s0 s1 st gs).vb1.length =
        (localizeAux sv0 sv1 off0 off1 s0 s1 st gs).seen.length * s1 := by
  induction gs with
  | nil => exact fun st _ _ h0 h1 => ⟨h0, h1⟩
  | cons g gs ih =>
    intro st hin0 hin1 h0 h1
    rw [localizeAux]
    refine ih _ (fun g' hg' => hin0 g' (List.mem_cons_of_mem _ hg'))
      (fun g' hg' => hin1 g' (List.mem_cons_of_mem _ hg')) ?_ ?_
    · rw [localizeStep_vb0, localizeStep_seen]
      by_cases h : g ∈ st.seen
      · simpa [h] using h0
      · simp only [h, ite_false, List.length_append, List.length_cons, h0]
        rw [slice_length sv0 _ _ (hin0 g (List.mem_cons_self _ _))]
        simp [Nat.succ_mul]
    · rw [localizeStep_vb1, localizeStep_seen]
      by_cases h : g ∈ st.seen
      · simpa [h] using h1
      · simp only [h, ite_false, List.length_append, List.length_cons, h1]
        rw [slice_length sv1 _ _ (hin1 g (List.mem_cons_self _ _))]
        simp [Nat.succ_mul]

theorem localizeAux_idx (sv0 sv1 : Bytes) (off0 off1 s0 s1 : Nat) (gs : List Nat) :
    ∀ st : LocalState,
      (localizeAux sv0 sv1 off0 off1 s0 s1 st gs).idx = st.idx ++ localSpec st.seen gs := by
  induction gs with
  | nil => intro st; simp [localizeAux, localSpec]
  | cons g gs ih =>
    intro st
    rw [localizeAux, ih, localSpec]
    rw [localizeStep_idx, localizeStep_seen]
    simp

theorem localSpec_eq_map (gs : List Nat) :
    ∀ S : List Nat, localSpec S gs = gs.map fun g => idxOf g (firstSeenFrom S gs) := by
  induction gs with
  | nil => intro S; rfl
  | cons g gs ih =>
    intro S
    have hg : g ∈ (if g ∈ S then S else S ++ [g]) := by
      by_cases h : g ∈ S <;> simp [h]
    obtain ⟨t, ht⟩ := firstSeenFrom_ext (if g ∈ S then S else S ++ [g]) gs
    rw [localSpec, List.map_cons]
    show idxOf g _ :: localSpec _ gs = _
    rw [ih]
    have hfs : firstSeenFrom S (g :: gs) =
        firstSeenFrom (if g ∈ S then S else S ++ [g]) gs := rfl
    rw [hfs, ht, idxOf_append_left t hg]

theorem localSpec_lt (gs : List Nat) :
    ∀ S : List Nat, ∀ v ∈ localSpec S gs, v < (firstSeenFrom S gs).length := by
  induction gs with
  | nil => intro S v hv; cases hv
  | cons g gs ih =>
    intro S v hv
    have hg : g ∈ (if g ∈ S then S else S ++ [g]) := by
      by_cases h : g ∈ S <;> simp [h]
    have hfs : firstSeenFrom S (g :: gs) =
        firstSeenFrom (if g ∈ S then S else S ++ [g]) gs := rfl
    rw [localSpec] at hv
    rcases List.mem_cons.mp hv with rfl | hv'
    · rw [hfs]
      exact Nat.lt_of_lt_of_le (idxOf_lt_length hg) (length_le_firstSeenFrom _ gs)
    · rw [hfs]
      exact ih _ v hv'

/-- C5: for a mesh built over a shared index-buffer slice referencing `k`
distinct global indices (`k` is the length of the first-occurrence list
`firstSeen`), each local vertex buffer holds exactly `k` vertices — `k`
times its per-vertex stride in bytes — every local index value is below
`k`, and the local index written at each slot is the rank of the slot's
global index in first-occurrence order.  Hypotheses: the index width is
one of {1, 2, 4, 8} and every referenced vertex record lies inside the
shared vertex buffers (the source reads them through unchecked
iterators). -/
theorem c5_dedup_localization (sv0 sv1 sib : Bytes) (w ibo off0 off1 : Nat)
    (attrs : List AttributeInfo) (tc : Nat)
    (hw : w = 1 ∨ w = 2 ∨ w = 4 ∨ w = 8)
    (hin0 : ∀ g ∈ globalIndices sib w ibo tc,
      off0 + g * (getVertexSizes attrs).1 + (getVertexSizes attrs).1 ≤ sv0.length)
    (hin1 : ∀ g ∈ globalIndices sib w ibo tc,
      off1 + g * (getVertexSizes attrs).2 + (getVertexSizes attrs).2 ≤ sv1.length) :
    (buildLocal sv0 sv1 sib w ibo off0 off1 attrs tc).vb0.length =
      (firstSeen (globalIndices sib w ibo tc)).length * (getVertexSizes attrs).1 ∧
    (buildLocal sv0 sv1 sib w ibo off0 off1 attrs tc).vb1.length =
      (firstSeen (globalIndices sib w ibo tc)).length * (getVertexSizes attrs).2 ∧
    (∀ v ∈ (buildLocal sv0 sv1 sib w ibo off0 off1 attrs tc).idx,
      v < (firstSeen (globalIndices sib w ibo tc)).length) ∧
    (buildLocal sv0 sv1 sib w ibo off0 off1 attrs tc).idx =
      (globalIndices sib w ibo tc).map
        fun g => idxOf g (firstSeen (globalIndices sib w ibo tc)) := by
  have hb : buildLocal sv0 sv1 sib w ibo off0 off1 attrs tc =
      localize sv0 sv1 off0 off1 (getVertexSizes attrs).1 (getVertexSizes attrs).2
        (globalIndices sib w ibo tc) := by
    unfold buildLocal
    rw [if_pos hw]
  rw [hb]
  unfold localize
  have hseen := localizeAux_seen sv0 sv1 off0 off1 (getVertexSizes attrs).1
    (getVertexSizes attrs).2 (globalIndices sib w ibo tc) ⟨[], [], [], []⟩
  have hvb := localizeAux_vb_length sv0 sv1 off0 off1 (getVertexSizes attrs).1
    (getVertexSizes attrs).2 (globalIndices sib w ibo tc) ⟨[], [], [], []⟩
    hin0 hin1 (by simp) (by simp)
  have hidx := localizeAux_idx sv0 sv1 off0 off1 (getVertexSizes attrs).1
    (getVertexSizes attrs).2 (globalIndices sib w ibo tc) ⟨[], [], [], []⟩
  refine ⟨?_, ?_, ?_, ?_⟩
  · rw [hvb.1, hseen]
    rfl
  · rw [hvb.2, hseen]
    rfl
  · intro v hv
    rw [hidx] at hv
    simp only [List.nil_append] at hv
    exact localSpec_lt (globalIndices sib w ibo tc) [] v hv
  · rw [hidx]
    simp only [List.nil_append]
    exact localSpec_eq_map (globalIndices sib w ibo tc) []

/-- C5 witness: index width 1, slice `[0, 1, 0]` (one triangle, two
distinct global indices), one FLOAT3 attribute on local buffer 0
(stride 12), 24 bytes of shared vertex data. -/
theorem c5_dedup_witness :
    (buildLocal (List.replicate 24 0) [] [0, 1, 0] 1 0 0 0 [⟨1, 2, 0, 0⟩] 1).vb0.length =
      (firstSeen (globalIndices [0, 1, 0] 1 0 1)).length *
        (getVertexSizes [⟨1, 2, 0, 0⟩]).1 ∧
    (buildLocal (List.replicate 24 0) [] [0, 1, 0] 1 0 0 0 [⟨1, 2, 0, 0⟩] 1).vb1.length =
      (firstSeen (globalIndices [0, 1, 0] 1 0 1)).length *
        (getVertexSizes [⟨1, 2, 0, 0⟩]).2 ∧
    (∀ v ∈ (buildLocal (List.replicate 24 0) [] [0, 1, 0] 1 0 0 0 [⟨1, 2, 0, 0⟩] 1).idx,
      v < (firstSeen (globalIndices [0, 1, 0] 1 0 1)).length) ∧
    (buildLocal (List.replicate 24 0) [] [0, 1, 0] 1 0 0 0 [⟨1, 2, 0, 0⟩] 1).idx =
      (globalIndices [0, 1, 0] 1 0 1).map
        fun g => idxOf g (firstSeen (globalIndices [0, 1, 0] 1 0 1)) :=
  c5_dedup_localization (List.replicate 24 0) [] [0, 1, 0] 1 0 0 0 [⟨1, 2, 0, 0⟩] 1
    (by decide) (by decide) (by decide)

end ControlModding
